import Mathlib

/-!
A shallow embedding of the `CppReadline::Console` class
(src/Console.hpp, src/Console.cpp): command registry and dispatch
(`executeCommand`), script execution (`executeFile`), the process-wide
history multiplexing performed by `reserveConsole`/`saveState`, and the
completion callbacks (`getCommandCompletions`/`commandIterator`).

Dispatch and script execution are embedded as pure functions that also
return an instrumentation trace: the handler invocations performed, the
invocations of valueless (empty `std::function`) registry entries — which
in C++ would throw `std::bad_function_call` — the diagnostics printed by
the dispatcher itself, and the number of times `command[0]` is read on an
empty line inside `executeFile`.
-/

namespace CppReadline

/-- `Console::CommandFunction`, `std::function<unsigned(const
std::vector<std::string> &)>`: a handler maps the token vector to an
`unsigned` result.  Unsigned values are embedded as `Nat`; the
`static_cast<int>` performed by `executeCommand` reduces modulo `2^32`,
so a handler value and its residue are indistinguishable, as in C++. -/
abbrev HandlerFn := List String → Nat

/-- `Console::RegisteredCommands`, `std::unordered_map<std::string,
CommandFunction>`, embedded as an association list with unique keys in
map iteration order.  An entry holds `none` as its `Option HandlerFn` when
the stored `std::function` is empty (valueless), as for the `quit` and
`exit` entries seeded by the constructor initialization list. -/
abbrev Registry := List (String × Option HandlerFn)

/-- `2^32`, the modulus of C++ `unsigned int` / `int` on the targeted
platforms. -/
def uintMod : Nat := 4294967296

/-- `static_cast<int>` applied to an `unsigned` value: two-complement
reinterpretation of `n % 2^32`. -/
def toInt32 (n : Nat) : Int :=
  if n % uintMod < 2147483648 then ((n % uintMod : Nat) : Int)
  else ((n % uintMod : Nat) : Int) - (uintMod : Int)

/-- The implicit `int` → `unsigned` conversion (modular). -/
def uintOfInt (i : Int) : Nat := (i.emod (uintMod : Int)).toNat

/- `Console::ReturnCode` (Console.hpp): `Quit = -1`, `Ok = 0`,
`Error = 1` (or greater). -/
namespace ReturnCode

def Quit : Int := -1

def Ok : Int := 0

def Error : Int := 1

end ReturnCode

/-- The diagnostics `executeCommand` and `executeFile` print on
`std::cout`, abstracted to their information content:
`commandNotFound n` stands for the printed line `Command <n> not found.`,
`fileNotFound` for `Could not find the specified file to execute.`, and
`echoLine c l` for the `[c] l` echo printed before running a script
line. -/
inductive Diag where
  | commandNotFound (name : String)
  | fileNotFound
  | echoLine (counter : Nat) (line : String)
  deriving DecidableEq

/-- Tokenization as performed by `std::istream_iterator<std::string>` in
`executeCommand`: split on whitespace, discarding empty fields.  `cur`
accumulates the current token in reverse. -/
def tokenizeAux : List Char → List Char → List String
  | [], cur => if cur = [] then [] else [String.mk cur.reverse]
  | c :: cs, cur =>
    if c.isWhitespace then
      (if cur = [] then tokenizeAux cs [] else String.mk cur.reverse :: tokenizeAux cs [])
    else tokenizeAux cs (c :: cur)

/-- The token vector `inputs` built at the top of
`Console::executeCommand` (Console.cpp lines 83-89). -/
def tokenize (s : String) : List String := tokenizeAux s.data []

/-- The observable outcome of one `executeCommand` call: the returned
`int`, the handler invocations performed (registry key and the full
token vector passed), the invocations of valueless entries (in C++ these
throw `std::bad_function_call`; `executeCommand` never reaches one, see
the theorems below), and the diagnostics printed. -/
structure ExecResult where
  code : Int
  calls : List (String × List String)
  badCalls : List String
  out : List Diag
  deriving DecidableEq

/-- `Console::executeCommand` (Console.cpp lines 81-101): tokenize; an
empty token vector returns `Ok`; a first token `quit` or `exit` returns
`Quit` before any registry lookup; otherwise look the first token up in
the registry and, if found, invoke the handler on the full token vector
and `static_cast<int>` its `unsigned` result; otherwise print
the `Command <token> not found.` diagnostic and return `Error`. -/
def executeCommand (reg : Registry) (command : String) : ExecResult :=
  match tokenize command with
  | [] => ⟨ReturnCode.Ok, [], [], []⟩
  | tok :: rest =>
    if tok = "quit" ∨ tok = "exit" then ⟨ReturnCode.Quit, [], [], []⟩
    else
      match reg.lookup tok with
      | some (some f) => ⟨toInt32 (f (tok :: rest)), [(tok, tok :: rest)], [], []⟩
      | some none => ⟨ReturnCode.Ok, [], [tok], []⟩
      | none => ⟨ReturnCode.Error, [], [], [Diag.commandNotFound tok]⟩

/-- `Console::registerCommand` (Console.cpp lines 48-50):
`commands_[s] = f` inserts or overwrites. -/
def registerCommand (reg : Registry) (s : String) (f : Option HandlerFn) : Registry :=
  if reg.any (fun p => p.1 = s) then reg.map (fun p => if p.1 = s then (s, f) else p)
  else reg ++ [(s, f)]

/-- `Console::getRegisteredCommands` (Console.cpp lines 52-57): the list
of registry keys in iteration order. -/
def getRegisteredCommands (reg : Registry) : List String := reg.map (fun p => p.1)

/-- The registry a `Console` holds after construction (Console.cpp lines
20-42): `quit` and `exit` seeded with empty functions by the
initialization list, then `help` (prints the registered names — printing
is outside `HandlerFn` — and returns 0) and `run` (with fewer than two
tokens prints usage and returns 1, otherwise delegates to
`this->executeFile(input[1])`, whose `int` result converts to the
`unsigned` handler result).  The member call through `this` is passed in
as the parameter `execFile`. -/
def defaultCommands (execFile : String → Int) : Registry :=
  [("quit", none), ("exit", none),
   ("help", some (fun _ => 0)),
   ("run", some (fun input => if input.length < 2 then 1 else uintOfInt (execFile (input.getD 1 ""))))]

/-- The observable outcome of one `executeFile` call: the returned
`int`, the handler invocations performed across the executed lines, the
diagnostics and line echoes printed, and how many times the
hash test of `command[0]` read index 0 of an empty line. -/
structure FileTrace where
  code : Int
  calls : List (String × List String)
  out : List Diag
  emptyReads : Nat
  deriving DecidableEq

/-- The hash test `command[0] == hash` of `executeFile` (Console.cpp line
113).  On an empty line, `std::string::operator[]` at position `size()`
yields the null character (C++11), so the comparison is with the null
character. -/
def firstCharIsHash (line : String) : Bool := line.data.headD (Char.ofNat 0) = '#'

/-- The `while (std::getline(...))` loop of `Console::executeFile`
(Console.cpp lines 112-118) over the remaining lines, with the current
value of `counter`: a line whose first character is `#` is skipped
(without incrementing `counter`); any other line is echoed as
`[counter] line` and passed to `executeCommand`; a non-zero result is
returned immediately; otherwise `counter` is incremented and the loop
continues.  `emptyReads` counts the `command[0]` reads performed on
empty lines. -/
def execLines (reg : Registry) (counter : Nat) : List String → FileTrace
  | [] => ⟨ReturnCode.Ok, [], [], 0⟩
  | line :: rest =>
    let er := if line = "" then 1 else 0
    if firstCharIsHash line then
      let t := execLines reg counter rest
      ⟨t.code, t.calls, t.out, er + t.emptyReads⟩
    else
      let r := executeCommand reg line
      if r.code ≠ 0 then ⟨r.code, r.calls, Diag.echoLine counter line :: r.out, er⟩
      else
        let t := execLines reg (counter + 1) rest
        ⟨t.code, r.calls ++ t.calls, Diag.echoLine counter line :: (r.out ++ t.out),
          er + t.emptyReads⟩

/-- `Console::executeFile` (Console.cpp lines 103-122).  The file system
is embedded as the argument `file`: `none` when `std::ifstream` cannot
open the path (diagnostic, return `Error`), `some lines` otherwise. -/
def executeFile (reg : Registry) (file : Option (List String)) : FileTrace :=
  match file with
  | none => ⟨ReturnCode.Error, [], [Diag.fileNotFound], 0⟩
  | some lines => execLines reg 0 lines

/-- The process-wide history-multiplexing state: the engine-held (GNU
readline) history list, the per-console `history_` snapshot field
(`none` while the pointer is null), and `Console::currentConsole_`.
Consoles are identified by `Nat`.  `Console::emptyHistory_` is the empty
history captured at start-up, i.e. `[]`. -/
structure MuxState where
  engine : List String
  snapshots : Nat → Option (List String)
  current : Option Nat

/-- `Console::emptyHistory_` (Console.cpp line 16): the history state
captured before anything is added — empty. -/
def emptyHistory : List String := []

/-- `Console::saveState` (Console.cpp lines 59-62) on console `A`: free
the old snapshot and capture the current engine history state into the
`history_` field of `A`. -/
def saveState (A : Nat) (s : MuxState) : MuxState :=
  { s with snapshots := fun i => if i = A then some s.engine else s.snapshots i }

/-- `Console::reserveConsole` (Console.cpp lines 64-79) on console `C`:
return immediately when `C` is already `currentConsole_`; otherwise save
the state of the current console if there is one, install the snapshot
of `C` into the engine (the shared `emptyHistory_` when the `history_`
field of `C` is null),
and set `currentConsole_` to `C`. -/
def reserveConsole (C : Nat) (s : MuxState) : MuxState :=
  if s.current = some C then s
  else
    let s1 := match s.current with
      | some A => saveState A s
      | none => s
    { engine := (s1.snapshots C).getD emptyHistory
      snapshots := s1.snapshots
      current := some C }

/-- `add_history` (called from `Console::readLine`, Console.cpp line
135): append one entry to the engine-held history. -/
def addHistory (e : String) (s : MuxState) : MuxState :=
  { s with engine := s.engine ++ [e] }

/-- Does `pat` occur at the start of `hay`? (helper for `find`). -/
def isPrefixList : List Char → List Char → Bool
  | [], _ => true
  | _ :: _, [] => false
  | a :: as, b :: bs => a = b && isPrefixList as bs

/-- `std::string::find(text) != npos`: does `pat` occur in `hay` as a
contiguous substring?  The empty pattern always occurs. -/
def containsSub (hay pat : List Char) : Bool :=
  match hay with
  | [] => pat = []
  | _ :: t => isPrefixList pat hay || containsSub t pat

/-- One call of `Console::commandIterator` (Console.cpp lines 152-168):
scan the registry from the static iterator position for the next key
containing `text` as a substring; return it together with the new
iterator position, or `nullptr` (`none`) when the registry is
exhausted. -/
def commandIterator (text : String) : Registry → Option (String × Registry)
  | [] => none
  | (name, _) :: rest =>
    if containsSub name.data text.data then some (name, rest)
    else commandIterator text rest

/-- The full match list `rl_completion_matches` assembles by calling
`commandIterator` with `state = 0` and then repeatedly with non-zero
`state` until it returns `nullptr`: the registry keys containing `text`
as a substring, in registry iteration order. -/
def collectMatches (text : String) : Registry → List String
  | [] => []
  | (name, _) :: rest =>
    if containsSub name.data text.data then name :: collectMatches text rest
    else collectMatches text rest

/-- `Console::getCommandCompletions` (Console.cpp lines 143-150): only
when the completion starts at column 0 of the line is
`rl_completion_matches` invoked; otherwise the returned list is
`nullptr` (`none`), i.e. no matches are offered. -/
def getCommandCompletions (reg : Registry) (text : String) (start : Nat) :
    Option (List String) :=
  if start = 0 then some (collectMatches text reg) else none

/-! ## History multiplexing lemmas -/

lemma reserveConsole_noop {C : Nat} {s : MuxState} (h : s.current = some C) :
    reserveConsole C s = s := by
  simp [reserveConsole, h]

lemma reserveConsole_of_other {C A : Nat} {s : MuxState} (hA : s.current = some A)
    (hAC : A ≠ C) :
    reserveConsole C s =
      { engine := ((saveState A s).snapshots C).getD emptyHistory
        snapshots := (saveState A s).snapshots
        current := some C } := by
  simp only [reserveConsole, hA]
  rw [if_neg]
  intro h
  exact hAC (Option.some.inj h)

lemma reserveConsole_of_none {C : Nat} {s : MuxState} (h : s.current = none) :
    reserveConsole C s =
      { engine := (s.snapshots C).getD emptyHistory
        snapshots := s.snapshots
        current := some C } := by
  simp only [reserveConsole, h]
  rw [if_neg]
  simp

lemma saveState_snapshots_self (A : Nat) (s : MuxState) :
    (saveState A s).snapshots A = some s.engine := by
  simp [saveState]

lemma saveState_snapshots_other {A B : Nat} (s : MuxState) (h : B ≠ A) :
    (saveState A s).snapshots B = s.snapshots B := by
  simp [saveState, h]

/-- C1: `reserveConsole C` is a no-op when `C` is already the active
owner; otherwise, when another console `A` is active, the engine-held
history is first captured into the snapshot storage of `A` (touching no
other snapshot), then the snapshot of `C` — or the empty sentinel when
`C` has none — is installed into the engine; when no console is active,
no snapshot changes and the snapshot of `C` (or the empty sentinel) is
installed; in every case `C` ends up as the unique active owner. -/
theorem reserveConsole_spec (C : Nat) (s : MuxState) :
    (s.current = some C → reserveConsole C s = s) ∧
    (∀ A, s.current = some A → A ≠ C →
      (reserveConsole C s).snapshots A = some s.engine ∧
      (∀ B, B ≠ A → (reserveConsole C s).snapshots B = s.snapshots B) ∧
      (reserveConsole C s).engine = (s.snapshots C).getD emptyHistory) ∧
    (s.current = none →
      (reserveConsole C s).snapshots = s.snapshots ∧
      (reserveConsole C s).engine = (s.snapshots C).getD emptyHistory) ∧
    (reserveConsole C s).current = some C := by
  refine ⟨reserveConsole_noop, ?_, ?_, ?_⟩
  · intro A hA hAC
    rw [reserveConsole_of_other hA hAC]
    refine ⟨saveState_snapshots_self A s, fun B hB => saveState_snapshots_other s hB, ?_⟩
    show ((saveState A s).snapshots C).getD emptyHistory = (s.snapshots C).getD emptyHistory
    rw [saveState_snapshots_other s (Ne.symm hAC)]
  · intro h
    rw [reserveConsole_of_none h]
    exact ⟨rfl, rfl⟩
  · by_cases h : s.current = some C
    · rw [reserveConsole_noop h]; exact h
    · cases hc : s.current with
      | none => rw [reserveConsole_of_none hc]
      | some A =>
        have hAC : A ≠ C := fun he => h (by rw [hc, he])
        rw [reserveConsole_of_other hc hAC]

/-- Witness for C1: with console 1 active, engine history `["x"]` and no
snapshots, reserving console 0 saves `["x"]` into the snapshot of 1,
installs the empty sentinel, and makes 0 the owner; reserving the
already-active console 0 is a no-op. -/
theorem reserveConsole_spec_witness :
    reserveConsole 0 ⟨["x"], fun _ => none, some 0⟩
      = (⟨["x"], fun _ => none, some 0⟩ : MuxState) ∧
    (reserveConsole 0 ⟨["x"], fun _ => none, some 1⟩).snapshots 1 = some ["x"] ∧
    (reserveConsole 0 ⟨["x"], fun _ => none, some 1⟩).engine = [] ∧
    (reserveConsole 0 ⟨["x"], fun _ => none, some 1⟩).current = some 0 := by
  refine ⟨(reserveConsole_spec 0 ⟨["x"], fun _ => none, some 0⟩).1 rfl, ?_, ?_,
    (reserveConsole_spec 0 ⟨["x"], fun _ => none, some 1⟩).2.2.2⟩
  · exact ((reserveConsole_spec 0 ⟨["x"], fun _ => none, some 1⟩).2.1 1 rfl (by decide)).1
  · have h := ((reserveConsole_spec 0 ⟨["x"], fun _ => none, some 1⟩).2.1 1 rfl (by decide)).2.2
    simpa [emptyHistory] using h

/-- A reachable multiplexer state: from the fresh process state, console
0 is reserved, entry `e` is added, then console 1 is reserved — so the
snapshot of console 0 already holds `e` while console 1 is active. -/
def muxAfterSessions : MuxState :=
  reserveConsole 1 (addHistory "e" (reserveConsole 0 ⟨[], fun _ => none, none⟩))

/-- C2 counterexample: in the reachable state `muxAfterSessions`,
console 1 is the active owner and `e` is added while it is active, yet
after reserving console 0 the entry `e` is PRESENT in the engine-held
history (console 0 entered `e` in its own earlier session), refuting the
claim that `e` is absent after switching for every entry `e`. -/
theorem history_round_trip_cex :
    muxAfterSessions.current = some 1 ∧ (0 : Nat) ≠ 1 ∧
    "e" ∈ (reserveConsole 0 (addHistory "e" muxAfterSessions)).engine := by
  refine ⟨rfl, by decide, ?_⟩
  have h : (reserveConsole 0 (addHistory "e" muxAfterSessions)).engine = ["e"] := rfl
  rw [h]
  exact List.mem_singleton.mpr rfl

/-- C2 (amended): if `e` is added while console `B` is active and `e` is
not already in the stored snapshot of console `A` (no snapshot counts as
empty), then after reserving `A` the entry `e` is absent from the
engine-installed history, and after reserving `B` again it is present —
switching owners never loses the outgoing entries. -/
theorem history_round_trip (A B : Nat) (e : String) (s : MuxState)
    (hAB : A ≠ B) (hcur : s.current = some B)
    (hA : e ∉ (s.snapshots A).getD emptyHistory) :
    e ∉ (reserveConsole A (addHistory e s)).engine ∧
    e ∈ (reserveConsole B (reserveConsole A (addHistory e s))).engine := by
  have hBA : B ≠ A := Ne.symm hAB
  have hcur1 : (addHistory e s).current = some B := hcur
  have e1 := reserveConsole_of_other (C := A) hcur1 hBA
  constructor
  · rw [e1]
    show e ∉ ((saveState B (addHistory e s)).snapshots A).getD emptyHistory
    rw [saveState_snapshots_other (addHistory e s) hAB]
    exact hA
  · have hcur2 : (reserveConsole A (addHistory e s)).current = some A := by rw [e1]
    have e2 := reserveConsole_of_other (C := B) hcur2 hAB
    rw [e2]
    show e ∈ ((saveState A (reserveConsole A (addHistory e s))).snapshots B).getD emptyHistory
    rw [saveState_snapshots_other (reserveConsole A (addHistory e s)) hBA, e1]
    show e ∈ ((saveState B (addHistory e s)).snapshots B).getD emptyHistory
    rw [saveState_snapshots_self B (addHistory e s)]
    simp [addHistory]

/-- Witness for C2 (amended): consoles 0 and 1, console 1 active with an
empty engine history and no snapshots; `e` is added while 1 is active,
invisible after reserving 0, visible again after reserving 1. -/
theorem history_round_trip_witness :
    "e" ∉ (reserveConsole 0 (addHistory "e" (⟨[], fun _ => none, some 1⟩ : MuxState))).engine ∧
    "e" ∈ (reserveConsole 1 (reserveConsole 0
      (addHistory "e" (⟨[], fun _ => none, some 1⟩ : MuxState)))).engine :=
  history_round_trip 0 1 "e" ⟨[], fun _ => none, some 1⟩ (by decide) rfl (by decide)

/-! ## Dispatch theorems -/

/-- C3: when the first whitespace-delimited token of the input line is
`quit` or `exit`, `executeCommand` returns `Quit` and performs no
handler invocation, no lookup of a valueless entry and no diagnostic —
for every registry, including ones with an entry registered under
`quit` or `exit`. -/
theorem executeCommand_quit_exit_intercept (reg : Registry) (line tok : String)
    (rest : List String) (htok : tokenize line = tok :: rest)
    (hq : tok = "quit" ∨ tok = "exit") :
    executeCommand reg line = ⟨ReturnCode.Quit, [], [], []⟩ := by
  unfold executeCommand
  rw [htok]
  rcases hq with h | h <;> simp [h]

/-- Witness for C3: a handler registered under `quit` is not invoked and
does not affect the `Quit` result. -/
theorem executeCommand_quit_exit_intercept_witness :
    executeCommand [("quit", some (fun _ => 7))] "quit"
      = ⟨ReturnCode.Quit, [], [], []⟩ :=
  executeCommand_quit_exit_intercept [("quit", some (fun _ => 7))] "quit" "quit" []
    rfl (Or.inl rfl)

/-- C5: when the first token of the line is a registered name other than
`quit`/`exit`, `executeCommand` invokes the registered handler exactly
once, on the full ordered token list (command name as token 0), and
returns the numeric result of the handler cast to the return-code
type (`static_cast<int>`). -/
theorem executeCommand_dispatch (reg : Registry) (line tok : String)
    (rest : List String) (h : HandlerFn) (htok : tokenize line = tok :: rest)
    (hq : tok ≠ "quit") (he : tok ≠ "exit")
    (hlook : reg.lookup tok = some (some h)) :
    executeCommand reg line = ⟨toInt32 (h (tok :: rest)), [(tok, tok :: rest)], [], []⟩ := by
  unfold executeCommand
  rw [htok]
  simp [hq, he, hlook]

/-- Witness for C5: after registering `foo` on a default console,
`executeCommand "foo bar baz"` invokes the handler exactly once with
tokens `["foo", "bar", "baz"]` and returns its result. -/
theorem executeCommand_dispatch_witness :
    executeCommand (registerCommand (defaultCommands (fun _ => ReturnCode.Ok)) "foo"
        (some (fun _ => 3))) "foo bar baz"
      = ⟨3, [("foo", ["foo", "bar", "baz"])], [], []⟩ :=
  executeCommand_dispatch
    (registerCommand (defaultCommands (fun _ => ReturnCode.Ok)) "foo" (some (fun _ => 3)))
    "foo bar baz" "foo" ["bar", "baz"] (fun _ => 3) rfl (by decide) (by decide) rfl

/-- C6 (code bug evidence): a registered handler CAN make
`executeCommand` return `Quit`.  The handler type returns `unsigned`;
a handler returning `4294967295` (`UINT_MAX`) is cast by
`static_cast<int>` to `-1`, which is exactly `ReturnCode::Quit`,
contradicting the Console.hpp documentation that normal functions
cannot issue the console to quit. -/
theorem handler_result_can_be_quit :
    executeCommand [("boom", some (fun _ => 4294967295))] "boom"
      = ⟨ReturnCode.Quit, [("boom", ["boom"])], [], []⟩ := by
  rfl

/-- C8: a line that tokenizes to no tokens yields `Ok` with no handler
invocation and no diagnostic; a line whose first token is not
`quit`/`exit` and matches no registry entry yields `Error` together
with the `Command <token> not found.` diagnostic naming that token. -/
theorem executeCommand_empty_or_unknown (reg : Registry) (line tok : String)
    (rest : List String) :
    (tokenize line = [] → executeCommand reg line = ⟨ReturnCode.Ok, [], [], []⟩) ∧
    (tokenize line = tok :: rest → tok ≠ "quit" → tok ≠ "exit" →
      reg.lookup tok = none →
      executeCommand reg line = ⟨ReturnCode.Error, [], [], [Diag.commandNotFound tok]⟩) := by
  constructor
  · intro h
    unfold executeCommand
    rw [h]
  · intro htok hq he hlook
    unfold executeCommand
    rw [htok]
    simp [hq, he, hlook]

/-- Witness for C8: on a default console, the empty line yields `Ok` and
`bogus` yields `Error` with a diagnostic naming `bogus`. -/
theorem executeCommand_empty_or_unknown_witness :
    executeCommand (defaultCommands (fun _ => ReturnCode.Ok)) ""
      = ⟨ReturnCode.Ok, [], [], []⟩ ∧
    executeCommand (defaultCommands (fun _ => ReturnCode.Ok)) "bogus"
      = ⟨ReturnCode.Error, [], [], [Diag.commandNotFound "bogus"]⟩ :=
  ⟨(executeCommand_empty_or_unknown (defaultCommands (fun _ => ReturnCode.Ok)) "" "x" []).1 rfl,
   (executeCommand_empty_or_unknown (defaultCommands (fun _ => ReturnCode.Ok)) "bogus" "bogus"
      []).2 rfl (by decide) (by decide) rfl⟩

lemma defaultCommands_valueless (execFile : String → Int) :
    ∀ n, (defaultCommands execFile).lookup n = some none → n = "quit" ∨ n = "exit" := by
  intro n h
  by_cases h1 : n = "quit"
  · exact Or.inl h1
  by_cases h2 : n = "exit"
  · exact Or.inr h2
  exfalso
  have b1 : (n == "quit") = false := beq_eq_false_iff_ne.mpr h1
  have b2 : (n == "exit") = false := beq_eq_false_iff_ne.mpr h2
  simp only [defaultCommands, List.lookup, b1, b2] at h
  cases hh : (n == "help") <;> rw [hh] at h
  · cases hr : (n == "run") <;> rw [hr] at h
    · exact Option.noConfusion h
    · exact Option.noConfusion (Option.some.inj h)
  · exact Option.noConfusion (Option.some.inj h)

/-- C10: in any registry whose valueless (empty `std::function`) entries
are only the keys `quit` and `exit` — as seeded by the constructor —
no input line makes `executeCommand` invoke a valueless entry (in C++
that call would throw `std::bad_function_call`), because interception of
`quit`/`exit` happens before registry lookup; yet both entries are
present in the constructed registry and both names appear in
`getRegisteredCommands`. -/
theorem seeded_quit_exit_never_invoked (reg : Registry) (line : String)
    (execFile : String → Int)
    (hval : ∀ n, reg.lookup n = some none → n = "quit" ∨ n = "exit") :
    (executeCommand reg line).badCalls = [] ∧
    (defaultCommands execFile).lookup "quit" = some none ∧
    (defaultCommands execFile).lookup "exit" = some none ∧
    "quit" ∈ getRegisteredCommands (defaultCommands execFile) ∧
    "exit" ∈ getRegisteredCommands (defaultCommands execFile) := by
  refine ⟨?_, rfl, rfl, by simp [defaultCommands, getRegisteredCommands],
    by simp [defaultCommands, getRegisteredCommands]⟩
  unfold executeCommand
  rcases htok : tokenize line with _ | ⟨tok, rest⟩
  · rfl
  · by_cases hq : tok = "quit" ∨ tok = "exit"
    · simp [hq]
    · simp only [if_neg hq]
      rcases hlook : reg.lookup tok with _ | o
      · simp
      · cases o with
        | none => exact absurd (hval tok hlook) hq
        | some f => simp

/-- Witness for C10: on a default console, dispatching any line performs
no valueless-entry invocation, and `quit` is listed among the registered
commands. -/
theorem seeded_quit_exit_never_invoked_witness :
    (executeCommand (defaultCommands (fun _ => ReturnCode.Ok)) "help wanted").badCalls = [] ∧
    "quit" ∈ getRegisteredCommands (defaultCommands (fun _ => ReturnCode.Ok)) :=
  ⟨(seeded_quit_exit_never_invoked (defaultCommands (fun _ => ReturnCode.Ok)) "help wanted"
      (fun _ => ReturnCode.Ok) (defaultCommands_valueless (fun _ => ReturnCode.Ok))).1,
   (seeded_quit_exit_never_invoked (defaultCommands (fun _ => ReturnCode.Ok)) "x"
      (fun _ => ReturnCode.Ok) (defaultCommands_valueless (fun _ => ReturnCode.Ok))).2.2.2.1⟩

/-! ## Script execution theorems -/

/-- C4: `executeFile` on an unopenable path prints a diagnostic and
returns `Error` without executing anything; on an opened file it runs
`execLines` from counter 0, which: returns `Ok` at end of file; skips a
comment line without dispatching it; stops immediately with the result
of the first non-comment line whose `executeCommand` result is non-zero
(no later line is executed, so `Quit` and `Error` propagate); and on a
zero result continues with the remaining lines. -/
theorem executeFile_spec (reg : Registry) (c : Nat) (line : String)
    (rest ls : List String) :
    ((executeFile reg none).code = ReturnCode.Error ∧
      (executeFile reg none).out = [Diag.fileNotFound] ∧
      (executeFile reg none).calls = []) ∧
    executeFile reg (some ls) = execLines reg 0 ls ∧
    (execLines reg c []).code = ReturnCode.Ok ∧
    (firstCharIsHash line = true →
      (execLines reg c (line :: rest)).code = (execLines reg c rest).code ∧
      (execLines reg c (line :: rest)).calls = (execLines reg c rest).calls) ∧
    (firstCharIsHash line = false → (executeCommand reg line).code ≠ 0 →
      (execLines reg c (line :: rest)).code = (executeCommand reg line).code ∧
      (execLines reg c (line :: rest)).calls = (executeCommand reg line).calls) ∧
    (firstCharIsHash line = false → (executeCommand reg line).code = 0 →
      (execLines reg c (line :: rest)).code = (execLines reg (c + 1) rest).code ∧
      (execLines reg c (line :: rest)).calls
        = (executeCommand reg line).calls ++ (execLines reg (c + 1) rest).calls) := by
  refine ⟨⟨rfl, rfl, rfl⟩, rfl, rfl, ?_, ?_, ?_⟩
  · intro hhash
    constructor <;> simp [execLines, hhash]
  · intro hhash hnz
    constructor <;> simp [execLines, hhash, hnz]
  · intro hhash hz
    constructor <;> simp [execLines, hhash, hz]

/-- Witness for C4: on a default console, the script
`["# note", "quit", "help"]` skips the comment, stops at `quit` with
result `Quit`; the script `["help", "bogus"]` runs `help` (result 0),
then stops at `bogus` with result `Error`. -/
theorem executeFile_spec_witness :
    (execLines (defaultCommands (fun _ => ReturnCode.Ok)) 0 ["# note", "quit", "help"]).code
      = ReturnCode.Quit ∧
    (execLines (defaultCommands (fun _ => ReturnCode.Ok)) 0 ["help", "bogus"]).code
      = ReturnCode.Error := by
  constructor
  · have h1 := (executeFile_spec (defaultCommands (fun _ => ReturnCode.Ok)) 0 "# note"
      ["quit", "help"] []).2.2.2.1 (by decide)
    have h2 := (executeFile_spec (defaultCommands (fun _ => ReturnCode.Ok)) 0 "quit"
      ["help"] []).2.2.2.2.1 (by decide) (by decide)
    rw [h1.1, h2.1]
    rfl
  · have h1 := (executeFile_spec (defaultCommands (fun _ => ReturnCode.Ok)) 0 "help"
      ["bogus"] []).2.2.2.2.2 (by decide) (by rfl)
    have h2 := (executeFile_spec (defaultCommands (fun _ => ReturnCode.Ok)) 1 "bogus"
      [] []).2.2.2.2.1 (by decide) (by decide)
    rw [h1.1, h2.1]
    rfl

/-- C9 counterexample: in `executeFile` the `command[0] == hash` test is
NOT guarded against an empty line — running the one-line script
consisting of a single empty line performs exactly one index-0 read on
an empty line, refuting the claim that such a read is never
performed. -/
theorem executeFile_reads_index_zero_of_empty_line :
    (executeFile [] (some [""])).emptyReads = 1 ∧
    ¬ (executeFile [] (some [""])).emptyReads = 0 := by
  constructor <;> decide

/-- C9 (amended): a line whose first character is `#` is skipped as a
comment without being dispatched; there is no emptiness guard — the
first-character read is performed on every processed line, including an
empty one — but on an empty line the C++11 index read yields the null
character, so the line is not treated as a comment: it is dispatched,
`executeCommand` returns `Ok`, and execution continues. -/
theorem executeFile_comment_skip_no_empty_guard (reg : Registry) (c : Nat)
    (line : String) (rest : List String) :
    (firstCharIsHash line = true →
      (execLines reg c (line :: rest)).calls = (execLines reg c rest).calls ∧
      (execLines reg c (line :: rest)).code = (execLines reg c rest).code) ∧
    firstCharIsHash "" = false ∧
    (executeCommand reg "").code = ReturnCode.Ok ∧
    (execLines reg c ("" :: rest)).emptyReads
      = 1 + (execLines reg (c + 1) rest).emptyReads ∧
    (execLines reg c ("" :: rest)).code = (execLines reg (c + 1) rest).code := by
  refine ⟨?_, rfl, rfl, ?_, ?_⟩
  · intro hhash
    constructor <;> simp [execLines, hhash]
  · simp [execLines, executeCommand, tokenize, tokenizeAux, firstCharIsHash, ReturnCode.Ok]
  · simp [execLines, executeCommand, tokenize, tokenizeAux, firstCharIsHash, ReturnCode.Ok]

/-- Witness for C9 (amended): with an empty registry, the one-line
comment script dispatches nothing, and the one-line empty script
performs exactly one index-0 read on an empty line and returns `Ok`. -/
theorem executeFile_comment_skip_no_empty_guard_witness :
    (execLines ([] : Registry) 0 ["# x"]).calls = [] ∧
    (execLines ([] : Registry) 0 [""]).emptyReads = 1 ∧
    (execLines ([] : Registry) 0 [""]).code = ReturnCode.Ok := by
  refine ⟨?_, ?_, ?_⟩
  · have h := (executeFile_comment_skip_no_empty_guard ([] : Registry) 0 "# x" []).1 (by decide)
    rw [h.1]
    rfl
  · have h := (executeFile_comment_skip_no_empty_guard ([] : Registry) 0 "" []).2.2.2.1
    rw [h]
    rfl
  · have h := (executeFile_comment_skip_no_empty_guard ([] : Registry) 0 "" []).2.2.2.2
    rw [h]
    rfl

/-! ## Completion theorems -/

lemma collectMatches_eq_filter (text : String) :
    ∀ reg : Registry, collectMatches text reg
      = (reg.filter (fun p => containsSub p.1.data text.data)).map (fun p => p.1) := by
  intro reg
  induction reg with
  | nil => rfl
  | cons p t ih =>
    rcases p with ⟨name, oh⟩
    by_cases h : containsSub name.data text.data = true
    · simp [collectMatches, List.filter_cons, h, ih]
    · simp [collectMatches, List.filter_cons, h, ih]

lemma collectMatches_iter_step (text : String) :
    ∀ reg : Registry, collectMatches text reg
      = (match commandIterator text reg with
         | none => []
         | some (n, r) => n :: collectMatches text r) := by
  intro reg
  induction reg with
  | nil => rfl
  | cons p t ih =>
    rcases p with ⟨name, oh⟩
    by_cases h : containsSub name.data text.data = true
    · simp [collectMatches, commandIterator, h]
    · simp [collectMatches, commandIterator, h, ih]

/-- C7: a completion query offers matches only when the completion
starts at column 0 of the line (any non-zero start yields `none`); the
offered matches are exactly the registered names containing the partial
text as a substring, in registry iteration order; the iterator is a
resumable cursor — exhausted on the empty remainder, and otherwise
yielding the next substring match together with the remainder to resume
from, so that restarting at state 0 and resuming step by step assembles
exactly the match list; querying `h` on a default console yields exactly
`["help"]`. -/
theorem getCommandCompletions_spec (reg : Registry) (text : String) (start : Nat)
    (name : String) (oh : Option HandlerFn) (rest : Registry) :
    (start ≠ 0 → getCommandCompletions reg text start = none) ∧
    getCommandCompletions reg text 0 = some (collectMatches text reg) ∧
    collectMatches text reg
      = (reg.filter (fun p => containsSub p.1.data text.data)).map (fun p => p.1) ∧
    commandIterator text ([] : Registry) = none ∧
    commandIterator text ((name, oh) :: rest)
      = (if containsSub name.data text.data then some (name, rest)
         else commandIterator text rest) ∧
    collectMatches text reg
      = (match commandIterator text reg with
         | none => []
         | some (n, r) => n :: collectMatches text r) ∧
    collectMatches "h" (defaultCommands (fun _ => ReturnCode.Ok)) = ["help"] := by
  refine ⟨?_, rfl, collectMatches_eq_filter text reg, rfl, rfl,
    collectMatches_iter_step text reg, rfl⟩
  intro h
  simp [getCommandCompletions, h]

/-- Witness for C7: on a default console the query `h` yields no matches
at start column 5 and exactly `["help"]` at start column 0. -/
theorem getCommandCompletions_spec_witness :
    getCommandCompletions (defaultCommands (fun _ => ReturnCode.Ok)) "h" 5 = none ∧
    getCommandCompletions (defaultCommands (fun _ => ReturnCode.Ok)) "h" 0 = some ["help"] := by
  have h := getCommandCompletions_spec (defaultCommands (fun _ => ReturnCode.Ok)) "h" 5
    "x" none []
  exact ⟨h.1 (by decide), by rw [h.2.1, h.2.2.2.2.2.2]⟩

end CppReadline
